import Mathlib

/-!
Verification of the rate-resolution engine and typed-character state machine
of the `typingEchoRate` global plugin (src/globalPlugins/typingEchoRate.py).

The Python module is shallowly embedded below.  Conventions:

* Python `int` is modelled as `Int`.
* The persisted JSON strings (`typingRatesJson`, …) are represented by the
  result of `json.loads` on them: `Option PyValue`, where `none` stands for a
  raise of the parser (empty string or invalid JSON) and `some v` for the
  parsed value.  `PyValue` covers the JSON value universe; non-integral JSON
  numbers are not modelled (the claims never depend on them).
* `config.conf[_ADDON_SECTION]` is the `AddonConf` structure; `conf.get(key,
  default)` on the two boolean toggles is modelled with `Option Bool` fields
  so the fallback chain of the source is kept.
* Character classification (`unicodedata.category(ch)[0] in "LMN"`) is
  modelled on the ASCII subset, where the categories L and N coincide with
  `Char.isAlpha`/`Char.isDigit` and category M is empty.
* Speech emission is modelled by returning the list of requests the patched
  handler makes, in order, instead of calling the host speech functions.
-/

/-- A Python value as produced by `json.loads` (floats not modelled). -/
inductive PyValue where
  | null : PyValue
  | bool (b : Bool) : PyValue
  | int (n : Int) : PyValue
  | str (s : String) : PyValue
  | list (items : List PyValue) : PyValue
  | dict (entries : List (String × PyValue)) : PyValue

/-- Python `int(v)` applied to a JSON-derived value: `none` models a raise
(`TypeError`/`ValueError`), which the loaders catch and skip. -/
def pyToInt : PyValue → Option Int
  | PyValue.int n => some n
  | PyValue.bool b => some (if b then 1 else 0)
  | PyValue.str s => s.toInt?
  | _ => none

/-- The `out` dict built by the loaders: entries of the parsed JSON object
whose value converts with `int(v)`; failing entries are skipped
(`except ... continue`). -/
def loadIntMapEntries : List (String × PyValue) → List (String × Int)
  | [] => []
  | (k, v) :: rest =>
    match pyToInt v with
    | some n => (k, n) :: loadIntMapEntries rest
    | none => loadIntMapEntries rest

/-- Shared body of `_loadTypingRatesMap` / `_loadSpellingRatesMap` /
`_loadBoostMap` / `_loadSpellBoostMap`: parse failure or a non-dict JSON
value gives the empty mapping. -/
def loadIntMap : Option PyValue → List (String × Int)
  | some (PyValue.dict entries) => loadIntMapEntries entries
  | _ => []

/-- Lookup in the loaded dict.  A Python dict built by repeated assignment
keeps the LAST entry written for a key, hence the `reverse`. -/
def dictLookup (m : List (String × Int)) (k : String) : Option Int :=
  (m.reverse).lookup k

/-- The add-on's configuration section (`config.conf["typingEchoRate"]`).
The four `...Json` fields hold the `json.loads` result of the persisted
string, see the module docstring. -/
structure AddonConf where
  enabled : Option Bool
  enabledSpelling : Option Bool
  applyToWords : Bool
  typingRatesJson : Option PyValue
  typingRate : Int
  oneCoreBoostJson : Option PyValue
  oneCoreBoost : Int
  spellingRatesJson : Option PyValue
  spellingRate : Int
  oneCoreSpellBoostJson : Option PyValue
  oneCoreSpellBoost : Int

/-- Embeds `_loadTypingRatesMap`. -/
def loadTypingRatesMap (conf : AddonConf) : List (String × Int) :=
  loadIntMap conf.typingRatesJson

/-- Embeds `_loadSpellingRatesMap`. -/
def loadSpellingRatesMap (conf : AddonConf) : List (String × Int) :=
  loadIntMap conf.spellingRatesJson

/-- Embeds `_loadBoostMap`. -/
def loadBoostMap (conf : AddonConf) : List (String × Int) :=
  loadIntMap conf.oneCoreBoostJson

/-- Embeds `_loadSpellBoostMap`. -/
def loadSpellBoostMap (conf : AddonConf) : List (String × Int) :=
  loadIntMap conf.oneCoreSpellBoostJson

/-- Embeds `_getTypingRateForSynth`: the per-synth entry if the synth name is
non-empty and present, else the scalar fallback `typingRate`. -/
def getTypingRateForSynth (conf : AddonConf) (synthName : String) : Int :=
  match (if synthName ≠ "" then dictLookup (loadTypingRatesMap conf) synthName
         else none) with
  | some v => v
  | none => conf.typingRate

/-- Embeds `_getSpellingRateForSynth`. -/
def getSpellingRateForSynth (conf : AddonConf) (synthName : String) : Int :=
  match (if synthName ≠ "" then dictLookup (loadSpellingRatesMap conf) synthName
         else none) with
  | some v => v
  | none => conf.spellingRate

/-- Embeds `_getBoostForSynth`. -/
def getBoostForSynth (conf : AddonConf) (synthName : String) : Int :=
  match (if synthName ≠ "" then dictLookup (loadBoostMap conf) synthName
         else none) with
  | some v => v
  | none => conf.oneCoreBoost

/-- Embeds `_getSpellBoostForSynth`. -/
def getSpellBoostForSynth (conf : AddonConf) (synthName : String) : Int :=
  match (if synthName ≠ "" then dictLookup (loadSpellBoostMap conf) synthName
         else none) with
  | some v => v
  | none => conf.oneCoreSpellBoost

/-- The clamp used throughout the source:
`if v < 0: v = 0 elif v > 100: v = 100`. -/
def pyClamp01 (v : Int) : Int :=
  if v < 0 then 0 else if v > 100 then 100 else v

/-- Python `str.lower()` restricted to ASCII (the family marker is ASCII). -/
def pyLowerChar (c : Char) : Char :=
  if 'A' ≤ c ∧ c ≤ 'Z' then Char.ofNat (c.toNat + 32) else c

/-- Lowercase of a whole string. -/
def pyLower (s : String) : String :=
  String.mk (s.toList.map pyLowerChar)

/-- Python `needle in hay` for strings as character lists. -/
def strContainsSub (hay needle : List Char) : Bool :=
  needle.isPrefixOf hay ||
    match hay with
    | [] => false
    | _ :: t => strContainsSub t needle

/-- Embeds `_isOneCoreSynthName`:
`n = (name or "").lower(); return "onecore" in n or n == "onecore"`. -/
def isOneCoreSynthName (name : String) : Bool :=
  let n := pyLower name
  strContainsSub n.toList "onecore".toList || n == "onecore"

/-- Lines 253-262 of `_computeTypingRateOffset`: the typing rate actually
used, after the negative-means-follow-default substitution and the clamp. -/
def resolvedTypingRate (conf : AddonConf) (synthName : String)
    (defaultRate : Int) : Int :=
  let typingRate := getTypingRateForSynth conf synthName
  let typingRate := if typingRate < 0 then defaultRate else typingRate
  pyClamp01 typingRate

/-- Embeds `_computeTypingRateOffset`.  Note the enabled guard reads
`enabledSpelling` and falls back to `enabled` (source line 247). -/
def computeTypingRateOffset (conf : AddonConf) (synthName : String)
    (defaultRate : Int) : Int :=
  if !(conf.enabledSpelling.getD (conf.enabled.getD true)) then 0
  else
    let offset := resolvedTypingRate conf synthName defaultRate - defaultRate
    if isOneCoreSynthName synthName then
      offset + pyClamp01 (getBoostForSynth conf synthName)
    else offset

/-- Lines 287-294 of `_computeSpellingRateOffset`. -/
def resolvedSpellingRate (conf : AddonConf) (synthName : String)
    (defaultRate : Int) : Int :=
  let spellingRate := getSpellingRateForSynth conf synthName
  let spellingRate := if spellingRate < 0 then defaultRate else spellingRate
  pyClamp01 spellingRate

/-- Embeds `_computeSpellingRateOffset`.  Its enabled guard reads `enabled`
(source line 281). -/
def computeSpellingRateOffset (conf : AddonConf) (synthName : String)
    (defaultRate : Int) : Int :=
  if !(conf.enabled.getD true) then 0
  else
    let offset := resolvedSpellingRate conf synthName defaultRate - defaultRate
    if isOneCoreSynthName synthName then
      offset + pyClamp01 (getSpellBoostForSynth conf synthName)
    else offset

/-- Embeds `TypingEcho` from `config.configFlags`. -/
inductive TypingEcho where
  | off : TypingEcho
  | always : TypingEcho
  | editControls : TypingEcho
deriving BEq, DecidableEq

/-- The host-owned inputs read inside `_patched_speakTypedCharacters`:
`api.isTypingProtected()`, the add-on's `applyToWords` option, the two
keyboard echo modes and `_isFocusEditable()`. -/
structure EchoEnv where
  isProtected : Bool
  applyToWords : Bool
  speakTypedWords : TypingEcho
  speakTypedCharacters : TypingEcho
  focusEditable : Bool
deriving BEq, DecidableEq

/-- A speech call made by the patched handler:
`wordRated` = `_speakTextWithTypingRate(typedWord)` (this core's rated path),
`wordPlain` = `_speech.speakText(typedWord)` (host fallback path),
`charRated` = `_speakSpellingWithTypingRate(realChar)`. -/
inductive SpeechRequest where
  | wordRated (text : String) : SpeechRequest
  | wordPlain (text : String) : SpeechRequest
  | charRated (text : String) : SpeechRequest
deriving BEq, DecidableEq

/-- Constant `PROTECTED_CHAR = "*"`. -/
def PROTECTED_CHAR : Char := '*'

/-- Constant `FIRST_NONCONTROL_CHAR = " "`. -/
def FIRST_NONCONTROL_CHAR : Char := ' '

/-- Embeds `unicodedata.category(ch)[0] in "LMN"`, modelled on the ASCII subset
(L = letters, N = digits, M empty in ASCII). -/
def isWordConstituent (c : Char) : Bool :=
  c.isAlpha || c.isDigit

/-- Source lines 426-431: the character-echo block run at the end of the
handler (skipped only by the delete early-return). -/
def charEchoRequests (env : EchoEnv) (ch realChar : Char) : List SpeechRequest :=
  if env.speakTypedCharacters ≠ TypingEcho.off ∧ FIRST_NONCONTROL_CHAR ≤ ch then
    if env.speakTypedCharacters = TypingEcho.always ∨
        (env.speakTypedCharacters = TypingEcho.editControls ∧
          env.focusEditable = true) then
      [SpeechRequest.charRated (String.singleton realChar)]
    else []
  else []

/-- Source lines 410-424: word handling at a boundary with a non-empty
buffer.  With `applyToWords` this core speaks the word through its rated
path; otherwise it falls back to the host's plain `speakText`. -/
def wordEchoRequests (env : EchoEnv) (typedWord : String) : List SpeechRequest :=
  if env.isProtected = false ∧ env.applyToWords = true then
    if env.speakTypedWords ≠ TypingEcho.off then
      if env.speakTypedWords = TypingEcho.always ∨
          (env.speakTypedWords = TypingEcho.editControls ∧
            env.focusEditable = true) then
        [SpeechRequest.wordRated typedWord]
      else []
    else []
  else
    if env.speakTypedWords ≠ TypingEcho.off ∧ env.isProtected = false then
      if env.speakTypedWords = TypingEcho.always ∨
          (env.speakTypedWords = TypingEcho.editControls ∧
            env.focusEditable = true) then
        [SpeechRequest.wordPlain typedWord]
      else []
    else []

/-- Source line 393: `realChar = PROTECTED_CHAR if typingIsProtected else ch`. -/
def maskChar (env : EchoEnv) (ch : Char) : Char :=
  if env.isProtected then PROTECTED_CHAR else ch

/-- Embeds `_patched_speakTypedCharacters` for one keystroke: takes the typed-word
buffer `_curWordChars` and the incoming character, returns the new buffer
and the speech requests made, in order.  The delete character returns
before the character-echo block (source line 403). -/
def onTypedCharacter (env : EchoEnv) (buf : List Char) (ch : Char) :
    List Char × List SpeechRequest :=
  let realChar := maskChar env ch
  if isWordConstituent ch = true then
    (buf ++ [realChar], charEchoRequests env ch realChar)
  else if ch = '\x08' then
    (buf.dropLast, charEchoRequests env ch realChar)
  else if ch = '\x7f' then
    (buf, [])
  else if buf.length > 0 then
    ([], wordEchoRequests env (String.mk buf) ++ charEchoRequests env ch realChar)
  else
    (buf, charEchoRequests env ch realChar)

/-- Iterate `onTypedCharacter` over a keystroke sequence, collecting all
requests in emission order. -/
def processTypedChars (env : EchoEnv) (buf : List Char) :
    List Char → List Char × List SpeechRequest
  | [] => (buf, [])
  | c :: rest =>
    let r := onTypedCharacter env buf c
    let r2 := processTypedChars env r.1 rest
    (r2.1, r.2 ++ r2.2)

/-- An element of a speech sequence handed to `_speech.speak`:
`rateCmdOffset o` = `RateCommand(offset=o)`, `rateCmdReset` =
`RateCommand()` (restore default), the rest is ordinary content. -/
inductive SpeechItem where
  | text (s : String) : SpeechItem
  | rateCmdOffset (offset : Int) : SpeechItem
  | rateCmdReset : SpeechItem
  | endUtterance : SpeechItem
deriving BEq, DecidableEq

/-- Embeds `_speakWithTypingRate`: the sequence actually handed to `_speech.speak`. -/
def speakWithTypingRate (conf : AddonConf) (synthName : String)
    (defaultRate : Int) (seq : List SpeechItem) : List SpeechItem :=
  let offset := computeTypingRateOffset conf synthName defaultRate
  if offset == 0 then seq
  else SpeechItem.rateCmdOffset offset :: (seq ++ [SpeechItem.rateCmdReset])

/-- Embeds `_speakSpellingWithSpellingRate`, applied to the sequence built by the
host's `getSpellingSpeech`. -/
def speakSpellingWithSpellingRate (conf : AddonConf) (synthName : String)
    (defaultRate : Int) (seq : List SpeechItem) : List SpeechItem :=
  let offset := computeSpellingRateOffset conf synthName defaultRate
  if offset == 0 then seq
  else SpeechItem.rateCmdOffset offset :: (seq ++ [SpeechItem.rateCmdReset])

/-- Is a request a word-level request of this core's rated path? -/
def isWordRated : SpeechRequest → Bool
  | SpeechRequest.wordRated _ => true
  | _ => false

/-- The text payload of a request. -/
def reqText : SpeechRequest → String
  | SpeechRequest.wordRated t => t
  | SpeechRequest.wordPlain t => t
  | SpeechRequest.charRated t => t

/-- Does a request carry only the mask placeholder? -/
def requestAllMasked (r : SpeechRequest) : Bool :=
  (reqText r).toList.all (fun x => x == PROTECTED_CHAR)

/-- The classification of a keystroke character used by the handler:
word-constituent, backspace, delete, and printable (`ch >= " "`). -/
def classifyTypedChar (c : Char) : Bool × Bool × Bool × Bool :=
  (isWordConstituent c, decide (c = '\x08'), decide (c = '\x7f'),
    decide (FIRST_NONCONTROL_CHAR ≤ c))

/-- Does the JSON parse result hold a JSON object (Python dict)? -/
def isJsonDict : Option PyValue → Bool
  | some (PyValue.dict _) => true
  | _ => false

/-- Example configuration with both toggles switched off. -/
def confBothDisabled : AddonConf :=
  ⟨some false, some false, false, none, -1, none, 0, none, -1, none, 0⟩

/-- Example configuration with per-synth rates for `espeak`, no boost data. -/
def confEspeakRates : AddonConf :=
  ⟨some true, some true, false,
    some (PyValue.dict [("espeak", PyValue.int 60)]), -1, none, 0,
    some (PyValue.dict [("espeak", PyValue.int 70)]), -1, none, 0⟩

/-- Example configuration storing a negative per-synth typing rate. -/
def confNegStoredRate : AddonConf :=
  ⟨some true, some true, false,
    some (PyValue.dict [("espeak", PyValue.int (-5))]), -1, none, 0,
    none, -1, none, 0⟩

/-- Example configuration with out-of-range stored values for a OneCore
synthesizer (as from hand-edited persisted state). -/
def confOutOfRange : AddonConf :=
  ⟨some true, some true, false,
    some (PyValue.dict [("onecore", PyValue.int 150)]), -1, none, 250,
    some (PyValue.dict [("onecore", PyValue.int (-9))]), -1, none, -3⟩

/-- Example configuration with negative stored rates for both purposes. -/
def confNegBoth : AddonConf :=
  ⟨some true, some true, false,
    some (PyValue.dict [("espeak", PyValue.int (-7))]), -1, none, 0,
    some (PyValue.dict [("espeak", PyValue.int (-3))]), -1, none, 0⟩

/-- Example configuration whose persisted maps are all malformed
(parse failure, or JSON that is not an object). -/
def confMalformed : AddonConf :=
  ⟨some true, some true, false, none, -1, some (PyValue.str "x"), 0,
    some (PyValue.list []), -1, some (PyValue.int 3), 0⟩

/-- Echo environment: unprotected input, word-apply disabled, both echo
modes ALWAYS, editable focus. -/
def envUnprotected : EchoEnv :=
  ⟨false, false, TypingEcho.always, TypingEcho.always, true⟩

/-- Echo environment with protected (masked) input active. -/
def envProtected : EchoEnv :=
  ⟨true, true, TypingEcho.always, TypingEcho.always, true⟩

/-- A word-constituent character is printable (`ch >= " "`). -/
theorem isWordConstituent_space_le {c : Char} (h : isWordConstituent c = true) :
    decide (FIRST_NONCONTROL_CHAR ≤ c) = true := by
  have hle : (' ' : Char) ≤ c := by
    simp only [isWordConstituent, Char.isAlpha, Char.isUpper, Char.isLower,
      Char.isDigit, Bool.or_eq_true, Bool.and_eq_true, decide_eq_true_eq] at h
    change (' ').val.toNat ≤ c.val.toNat
    rcases h with (⟨h1, _⟩ | ⟨h1, _⟩) | ⟨h1, _⟩ <;>
    · have h1' : (_ : UInt32).toNat ≤ c.val.toNat := h1
      simp [UInt32.size] at h1' ⊢
      omega
  simpa [FIRST_NONCONTROL_CHAR] using hle

/-- The `n == "onecore"` disjunct of `_isOneCoreSynthName` is subsumed by
the substring test: the predicate is exactly case-insensitive substring
containment of the family marker. -/
theorem isOneCoreSynthName_eq_contains (name : String) :
    isOneCoreSynthName name =
      strContainsSub (pyLower name).toList "onecore".toList := by
  simp only [isOneCoreSynthName]
  cases hc : strContainsSub (pyLower name).toList "onecore".toList with
  | true => simp [hc]
  | false =>
    simp only [hc, Bool.false_or]
    cases hb : (pyLower name == "onecore") with
    | false => rfl
    | true =>
      exfalso
      have he : pyLower name = "onecore" := eq_of_beq hb
      rw [he] at hc
      exact absurd hc (by decide)

/-- C1: if the purpose's enabled flag consulted by the code is false, the
offset-resolution function returns 0, whatever the synthesizer identity,
the default rate, and all configured rate and boost values.  For typing the
flag consulted is `enabledSpelling` (falling back to `enabled`), for
spelling it is `enabled`. -/
theorem disabled_purpose_offset_zero (conf : AddonConf) (synthName : String)
    (defaultRate : Int) :
    (conf.enabledSpelling.getD (conf.enabled.getD true) = false →
      computeTypingRateOffset conf synthName defaultRate = 0) ∧
    (conf.enabled.getD true = false →
      computeSpellingRateOffset conf synthName defaultRate = 0) := by
  constructor
  · intro h
    simp [computeTypingRateOffset, h]
  · intro h
    simp [computeSpellingRateOffset, h]

/-- Witness for `disabled_purpose_offset_zero` at a concrete disabled
configuration. -/
theorem disabled_purpose_offset_zero_witness :
    computeTypingRateOffset confBothDisabled "espeak" 50 = 0 ∧
    computeSpellingRateOffset confBothDisabled "espeak" 50 = 0 :=
  ⟨(disabled_purpose_offset_zero confBothDisabled "espeak" 50).1 rfl,
   (disabled_purpose_offset_zero confBothDisabled "espeak" 50).2 rfl⟩

/-- C4: with the purpose enabled, a per-synth rate `r ∈ [0,100]` stored for
the active synthesizer, a default rate `d ∈ [0,100]`, and no boost applying
(non-OneCore identity, or a boost that clamps to 0), the resolved offset is
exactly `r - d`, for typing and for spelling. -/
theorem enabled_no_boost_offset_exact (conf : AddonConf) (synthName : String)
    (d rT rS : Int) (hd0 : 0 ≤ d) (hd1 : d ≤ 100) (hs : synthName ≠ "")
    (hT : dictLookup (loadTypingRatesMap conf) synthName = some rT)
    (hT0 : 0 ≤ rT) (hT1 : rT ≤ 100)
    (hS : dictLookup (loadSpellingRatesMap conf) synthName = some rS)
    (hS0 : 0 ≤ rS) (hS1 : rS ≤ 100)
    (henT : conf.enabledSpelling.getD (conf.enabled.getD true) = true)
    (henS : conf.enabled.getD true = true)
    (hnb : isOneCoreSynthName synthName = false ∨
      (pyClamp01 (getBoostForSynth conf synthName) = 0 ∧
       pyClamp01 (getSpellBoostForSynth conf synthName) = 0)) :
    computeTypingRateOffset conf synthName d = rT - d ∧
    computeSpellingRateOffset conf synthName d = rS - d := by
  have hgT : getTypingRateForSynth conf synthName = rT := by
    simp [getTypingRateForSynth, hs, hT]
  have hgS : getSpellingRateForSynth conf synthName = rS := by
    simp [getSpellingRateForSynth, hs, hS]
  have hrT : resolvedTypingRate conf synthName d = rT := by
    have h1 : ¬ rT < 0 := by omega
    have h2 : ¬ rT > 100 := by omega
    simp [resolvedTypingRate, hgT, pyClamp01, h1, h2]
  have hrS : resolvedSpellingRate conf synthName d = rS := by
    have h1 : ¬ rS < 0 := by omega
    have h2 : ¬ rS > 100 := by omega
    simp [resolvedSpellingRate, hgS, pyClamp01, h1, h2]
  rcases hnb with hoc | ⟨hb1, hb2⟩
  · constructor
    · simp [computeTypingRateOffset, henT, hoc, hrT]
    · simp [computeSpellingRateOffset, henS, hoc, hrS]
  · by_cases hoc : isOneCoreSynthName synthName
    · constructor
      · simp [computeTypingRateOffset, henT, hoc, hb1, hrT]
      · simp [computeSpellingRateOffset, henS, hoc, hb2, hrS]
    · constructor
      · simp [computeTypingRateOffset, henT, hoc, hrT]
      · simp [computeSpellingRateOffset, henS, hoc, hrS]

/-- Witness for `enabled_no_boost_offset_exact`: espeak (non-OneCore) with
stored rates 60 (typing) and 70 (spelling) and default rate 50. -/
theorem enabled_no_boost_offset_exact_witness :
    computeTypingRateOffset confEspeakRates "espeak" 50 = 60 - 50 ∧
    computeSpellingRateOffset confEspeakRates "espeak" 50 = 70 - 50 :=
  enabled_no_boost_offset_exact confEspeakRates "espeak" 50 60 70
    (by decide) (by decide) (by decide) (by decide) (by decide) (by decide)
    (by decide) (by decide) (by decide) (by decide) (by decide)
    (Or.inl (by decide))

/-- C5: the boost term is added exactly when the lowercased synthesizer
identity contains the marker "onecore" as a substring (the `== "onecore"`
disjunct in the source is redundant); otherwise the returned offset is the
base offset, whatever boost is configured; when added, the boost is first
clamped into [0,100]. -/
theorem oneCore_boost_iff_marker (conf : AddonConf) (synthName : String)
    (d : Int) :
    isOneCoreSynthName synthName =
      strContainsSub (pyLower synthName).toList "onecore".toList ∧
    (conf.enabledSpelling.getD (conf.enabled.getD true) = true →
      computeTypingRateOffset conf synthName d =
        resolvedTypingRate conf synthName d - d +
          (if strContainsSub (pyLower synthName).toList "onecore".toList = true
           then pyClamp01 (getBoostForSynth conf synthName) else 0)) ∧
    (conf.enabled.getD true = true →
      computeSpellingRateOffset conf synthName d =
        resolvedSpellingRate conf synthName d - d +
          (if strContainsSub (pyLower synthName).toList "onecore".toList = true
           then pyClamp01 (getSpellBoostForSynth conf synthName) else 0)) := by
  refine ⟨isOneCoreSynthName_eq_contains synthName, ?_, ?_⟩
  · intro h
    simp only [computeTypingRateOffset, h, Bool.not_true, Bool.false_eq_true,
      if_false]
    rw [isOneCoreSynthName_eq_contains synthName]
    by_cases hc : strContainsSub (pyLower synthName).toList "onecore".toList = true
    · simp only [String.toList] at hc ⊢
      simp [hc]
    · simp only [String.toList] at hc ⊢
      simp [hc]
  · intro h
    simp only [computeSpellingRateOffset, h, Bool.not_true, Bool.false_eq_true,
      if_false]
    rw [isOneCoreSynthName_eq_contains synthName]
    by_cases hc : strContainsSub (pyLower synthName).toList "onecore".toList = true
    · simp only [String.toList] at hc ⊢
      simp [hc]
    · simp only [String.toList] at hc ⊢
      simp [hc]

/-- Witness for `oneCore_boost_iff_marker` at an enabled configuration and
a OneCore identity. -/
theorem oneCore_boost_iff_marker_witness :
    (computeTypingRateOffset confOutOfRange "onecore" 40 =
      resolvedTypingRate confOutOfRange "onecore" 40 - 40 +
        (if strContainsSub (pyLower "onecore").toList "onecore".toList = true
         then pyClamp01 (getBoostForSynth confOutOfRange "onecore") else 0)) ∧
    (computeSpellingRateOffset confOutOfRange "onecore" 40 =
      resolvedSpellingRate confOutOfRange "onecore" 40 - 40 +
        (if strContainsSub (pyLower "onecore").toList "onecore".toList = true
         then pyClamp01 (getSpellBoostForSynth confOutOfRange "onecore") else 0)) :=
  ⟨(oneCore_boost_iff_marker confOutOfRange "onecore" 40).2.1 rfl,
   (oneCore_boost_iff_marker confOutOfRange "onecore" 40).2.2 rfl⟩

/-- C6 counterexample: a stored per-synth typing rate of -5 is NOT treated
as 0 by offset resolution.  Clamping it to 0 would give offset
`pyClamp01 (-5) - 50 = -50` at default rate 50, but the code resolves the
negative value to the default rate and returns offset 0. -/
theorem negative_stored_rate_not_clamped_to_zero :
    getTypingRateForSynth confNegStoredRate "espeak" = -5 ∧
    pyClamp01 (-5) - 50 = -50 ∧
    computeTypingRateOffset confNegStoredRate "espeak" 50 = 0 ∧
    (0 : Int) ≠ -50 := by
  refine ⟨by decide, by decide, by decide, by decide⟩

/-- C6 amended: stored boost values are clamped into [0,100] on read, and a
stored rate value above 100 is treated as 100; but a stored rate value
below 0 is treated as "follow the synthesizer's default rate" (the
resolved rate becomes the clamped default rate), not as 0. -/
theorem stored_value_clamping_amended (conf : AddonConf) (synthName : String)
    (d v w : Int)
    (hv : getTypingRateForSynth conf synthName = v)
    (hw : getSpellingRateForSynth conf synthName = w) :
    resolvedTypingRate conf synthName d =
      (if v < 0 then pyClamp01 d else pyClamp01 v) ∧
    resolvedSpellingRate conf synthName d =
      (if w < 0 then pyClamp01 d else pyClamp01 w) ∧
    (conf.enabledSpelling.getD (conf.enabled.getD true) = true →
      isOneCoreSynthName synthName = true →
      computeTypingRateOffset conf synthName d =
        resolvedTypingRate conf synthName d - d +
          pyClamp01 (getBoostForSynth conf synthName)) ∧
    (conf.enabled.getD true = true →
      isOneCoreSynthName synthName = true →
      computeSpellingRateOffset conf synthName d =
        resolvedSpellingRate conf synthName d - d +
          pyClamp01 (getSpellBoostForSynth conf synthName)) := by
  refine ⟨?_, ?_, ?_, ?_⟩
  · simp only [resolvedTypingRate, hv]
    split <;> rfl
  · simp only [resolvedSpellingRate, hw]
    split <;> rfl
  · intro hen hoc
    simp [computeTypingRateOffset, hen, hoc]
  · intro hen hoc
    simp [computeSpellingRateOffset, hen, hoc]

/-- Witness for `stored_value_clamping_amended`: OneCore synth with stored
typing rate 150 (clamps to 100), stored spelling rate -9 (follows the
default 40), fallback typing boost 250 (clamps to 100) and fallback
spelling boost -3 (clamps to 0). -/
theorem stored_value_clamping_amended_witness :
    resolvedTypingRate confOutOfRange "onecore" 40 =
      (if (150 : Int) < 0 then pyClamp01 40 else pyClamp01 150) ∧
    resolvedSpellingRate confOutOfRange "onecore" 40 =
      (if (-9 : Int) < 0 then pyClamp01 40 else pyClamp01 (-9)) ∧
    computeTypingRateOffset confOutOfRange "onecore" 40 =
      resolvedTypingRate confOutOfRange "onecore" 40 - 40 +
        pyClamp01 (getBoostForSynth confOutOfRange "onecore") ∧
    computeSpellingRateOffset confOutOfRange "onecore" 40 =
      resolvedSpellingRate confOutOfRange "onecore" 40 - 40 +
        pyClamp01 (getSpellBoostForSynth confOutOfRange "onecore") := by
  have T := stored_value_clamping_amended confOutOfRange "onecore" 40 150 (-9)
    (by decide) (by decide)
  exact ⟨T.1, T.2.1, T.2.2.1 (by decide) (by decide),
    T.2.2.2 (by decide) (by decide)⟩

/-- C7: the dispatch operations forward the speech sequence unmodified when
the resolved offset is 0, and otherwise wrap it as
`[RateCommand(offset)] ++ sequence ++ [RateCommand()]`, scoping the rate
override to exactly this utterance. -/
theorem speech_dispatch_wrapping (conf : AddonConf) (synthName : String)
    (defaultRate : Int) (seq : List SpeechItem) :
    speakWithTypingRate conf synthName defaultRate seq =
      (if computeTypingRateOffset conf synthName defaultRate = 0 then seq
       else SpeechItem.rateCmdOffset
              (computeTypingRateOffset conf synthName defaultRate) ::
            (seq ++ [SpeechItem.rateCmdReset])) ∧
    speakSpellingWithSpellingRate conf synthName defaultRate seq =
      (if computeSpellingRateOffset conf synthName defaultRate = 0 then seq
       else SpeechItem.rateCmdOffset
              (computeSpellingRateOffset conf synthName defaultRate) ::
            (seq ++ [SpeechItem.rateCmdReset])) := by
  constructor
  · simp [speakWithTypingRate, beq_iff_eq]
  · simp [speakSpellingWithSpellingRate, beq_iff_eq]

/-- Malformed persisted data (parse failure or a JSON value that is not an
object) loads as the empty mapping. -/
theorem loadIntMap_eq_nil_of_not_dict (v : Option PyValue)
    (h : isJsonDict v = false) : loadIntMap v = [] := by
  cases v with
  | none => rfl
  | some pv =>
    cases pv with
    | dict es => simp [isJsonDict] at h
    | null => rfl
    | bool b => rfl
    | int n => rfl
    | str s => rfl
    | list l => rfl

/-- C9: the four map-loading operations are total (never raise) and return
the empty mapping whenever the persisted value is not a well-formed
mapping: parse failure (empty string or invalid JSON, `none` here) or a
JSON value that is not an object. -/
theorem malformed_map_loads_empty (conf : AddonConf)
    (h1 : isJsonDict conf.typingRatesJson = false)
    (h2 : isJsonDict conf.spellingRatesJson = false)
    (h3 : isJsonDict conf.oneCoreBoostJson = false)
    (h4 : isJsonDict conf.oneCoreSpellBoostJson = false) :
    loadTypingRatesMap conf = [] ∧ loadSpellingRatesMap conf = [] ∧
    loadBoostMap conf = [] ∧ loadSpellBoostMap conf = [] :=
  ⟨loadIntMap_eq_nil_of_not_dict _ h1, loadIntMap_eq_nil_of_not_dict _ h2,
   loadIntMap_eq_nil_of_not_dict _ h3, loadIntMap_eq_nil_of_not_dict _ h4⟩

/-- Witness for `malformed_map_loads_empty`: parse failure, a JSON string,
a JSON array and a JSON number all load as the empty mapping. -/
theorem malformed_map_loads_empty_witness :
    loadTypingRatesMap confMalformed = [] ∧
    loadSpellingRatesMap confMalformed = [] ∧
    loadBoostMap confMalformed = [] ∧ loadSpellBoostMap confMalformed = [] :=
  malformed_map_loads_empty confMalformed rfl rfl rfl rfl

/-- C10: any negative stored rate value (not only the -1 sentinel) is
treated as "follow the synthesizer's default rate": the resolved rate
becomes `defaultRate` and the pre-boost offset is 0, rather than clamping
the negative value to 0 (which would give offset `-defaultRate`). -/
theorem negative_rate_follows_default (conf : AddonConf) (synthName : String)
    (d v w : Int)
    (hv : getTypingRateForSynth conf synthName = v) (hvneg : v < 0)
    (hw : getSpellingRateForSynth conf synthName = w) (hwneg : w < 0)
    (hd0 : 0 ≤ d) (hd1 : d ≤ 100) :
    resolvedTypingRate conf synthName d = d ∧
    resolvedTypingRate conf synthName d - d = 0 ∧
    resolvedSpellingRate conf synthName d = d ∧
    resolvedSpellingRate conf synthName d - d = 0 := by
  have h1 : resolvedTypingRate conf synthName d = d := by
    simp only [resolvedTypingRate, hv, if_pos hvneg, pyClamp01]
    rw [if_neg (by omega), if_neg (by omega)]
  have h2 : resolvedSpellingRate conf synthName d = d := by
    simp only [resolvedSpellingRate, hw, if_pos hwneg, pyClamp01]
    rw [if_neg (by omega), if_neg (by omega)]
  exact ⟨h1, by omega, h2, by omega⟩

/-- Witness for `negative_rate_follows_default`: stored typing rate -7 and
spelling rate -3 for espeak, default rate 50. -/
theorem negative_rate_follows_default_witness :
    resolvedTypingRate confNegBoth "espeak" 50 = 50 ∧
    resolvedTypingRate confNegBoth "espeak" 50 - 50 = 0 ∧
    resolvedSpellingRate confNegBoth "espeak" 50 = 50 ∧
    resolvedSpellingRate confNegBoth "espeak" 50 - 50 = 0 :=
  negative_rate_follows_default confNegBoth "espeak" 50 (-7) (-3)
    (by decide) (by decide) (by decide) (by decide) (by decide) (by decide)


/-- When character echo permits (mode ALWAYS, or EDIT_CONTROLS with an
editable focus) and the character is printable, the character-echo block
emits exactly one character-level request. -/
theorem charEchoRequests_of_permits (env : EchoEnv) (ch realChar : Char)
    (hmode : env.speakTypedCharacters = TypingEcho.always ∨
      (env.speakTypedCharacters = TypingEcho.editControls ∧
        env.focusEditable = true))
    (hch : decide (FIRST_NONCONTROL_CHAR ≤ ch) = true) :
    charEchoRequests env ch realChar =
      [SpeechRequest.charRated (String.singleton realChar)] := by
  have hoff : env.speakTypedCharacters ≠ TypingEcho.off := by
    rcases hmode with h | ⟨h, _⟩ <;> simp [h]
  have hch' : FIRST_NONCONTROL_CHAR ≤ ch := of_decide_eq_true hch
  unfold charEchoRequests
  rw [if_pos ⟨hoff, hch'⟩, if_pos hmode]

/-- Processing a run of word-constituent characters with unprotected input
appends them to the buffer and emits exactly one character-level request
per character. -/
theorem processTypedChars_word_run (env : EchoEnv)
    (hprot : env.isProtected = false)
    (hmode : env.speakTypedCharacters = TypingEcho.always ∨
      (env.speakTypedCharacters = TypingEcho.editControls ∧
        env.focusEditable = true)) :
    ∀ (cs : List Char), (∀ c ∈ cs, isWordConstituent c = true) →
    ∀ (buf : List Char),
      processTypedChars env buf cs =
        (buf ++ cs,
         cs.map fun c => SpeechRequest.charRated (String.singleton c)) := by
  intro cs
  induction cs with
  | nil => intro _ buf; simp [processTypedChars]
  | cons c rest ih =>
    intro hcs buf
    have hc : isWordConstituent c = true := hcs c (by simp)
    have hrest : ∀ x ∈ rest, isWordConstituent x = true := fun x hx =>
      hcs x (by simp [hx])
    have hstep : onTypedCharacter env buf c =
        (buf ++ [c], [SpeechRequest.charRated (String.singleton c)]) := by
      simp [onTypedCharacter, maskChar, hprot, hc,
        charEchoRequests_of_permits env c c hmode (isWordConstituent_space_le hc)]
    simp [processTypedChars, hstep, ih hrest (buf ++ [c]), List.append_assoc]

/-- The character-echo block never emits a rated word-level request. -/
theorem charEchoRequests_no_wordRated (env : EchoEnv) (ch realChar : Char) :
    ∀ r ∈ charEchoRequests env ch realChar, isWordRated r = false := by
  intro r hr
  unfold charEchoRequests at hr
  split at hr
  · split at hr
    · simp at hr
      simp [hr, isWordRated]
    · simp at hr
  · simp at hr

/-- With "apply to words" disabled, the word-handling block never emits a
rated word-level request (only the host-path fallback). -/
theorem wordEchoRequests_no_wordRated (env : EchoEnv) (t : String)
    (happly : env.applyToWords = false) :
    ∀ r ∈ wordEchoRequests env t, isWordRated r = false := by
  intro r hr
  unfold wordEchoRequests at hr
  rw [if_neg (by simp [happly])] at hr
  split at hr
  · split at hr
    · simp at hr
      simp [hr, isWordRated]
    · simp at hr
  · simp at hr

/-- With "apply to words" disabled, one keystroke never emits a rated
word-level request. -/
theorem onTypedCharacter_no_wordRated (env : EchoEnv) (buf : List Char)
    (ch : Char) (happly : env.applyToWords = false) :
    ∀ r ∈ (onTypedCharacter env buf ch).2, isWordRated r = false := by
  intro r hr
  simp only [onTypedCharacter] at hr
  split at hr
  · exact charEchoRequests_no_wordRated env ch _ r hr
  · split at hr
    · exact charEchoRequests_no_wordRated env ch _ r hr
    · split at hr
      · simp at hr
      · split at hr
        · rcases List.mem_append.mp hr with h | h
          · exact wordEchoRequests_no_wordRated env _ happly r h
          · exact charEchoRequests_no_wordRated env ch _ r h
        · exact charEchoRequests_no_wordRated env ch _ r hr

/-- With "apply to words" disabled, no keystroke sequence ever emits a
rated word-level request. -/
theorem processTypedChars_no_wordRated (env : EchoEnv)
    (happly : env.applyToWords = false) :
    ∀ (chs : List Char) (buf : List Char),
      ∀ r ∈ (processTypedChars env buf chs).2, isWordRated r = false := by
  intro chs
  induction chs with
  | nil => intro buf r hr; simp [processTypedChars] at hr
  | cons c rest ih =>
    intro buf r hr
    simp only [processTypedChars] at hr
    rcases List.mem_append.mp hr with h | h
    · exact onTypedCharacter_no_wordRated env buf c happly r h
    · exact ih (onTypedCharacter env buf c).1 r h

/-- C2: for a run of word-constituent characters followed by a boundary
character, with "apply to words" disabled and input unprotected, the
handler emits exactly one character-level request per word-constituent
character (when character echo permits) and never a rated word-level
request from this core (the boundary may only trigger the host's own
plain word path). -/
theorem typedWord_apply_disabled_char_only (env : EchoEnv) (cs : List Char)
    (b : Char) (happly : env.applyToWords = false)
    (hprot : env.isProtected = false)
    (hcs : ∀ c ∈ cs, isWordConstituent c = true)
    (hb : isWordConstituent b = false)
    (hmode : env.speakTypedCharacters = TypingEcho.always ∨
      (env.speakTypedCharacters = TypingEcho.editControls ∧
        env.focusEditable = true)) :
    processTypedChars env [] cs =
      (cs, cs.map fun c => SpeechRequest.charRated (String.singleton c)) ∧
    ((processTypedChars env [] (cs ++ [b])).2.all
      fun r => !(isWordRated r)) = true := by
  constructor
  · simpa using processTypedChars_word_run env hprot hmode cs hcs []
  · rw [List.all_eq_true]
    intro r hr
    have h := processTypedChars_no_wordRated env happly (cs ++ [b]) [] r hr
    simp [h]

/-- Witness for `typedWord_apply_disabled_char_only`: typing "cat" then a
space in the unprotected, word-apply-disabled environment. -/
theorem typedWord_apply_disabled_char_only_witness :
    processTypedChars envUnprotected [] (['c', 'a', 't']) =
      (['c', 'a', 't'],
       ['c', 'a', 't'].map fun c => SpeechRequest.charRated (String.singleton c)) ∧
    ((processTypedChars envUnprotected [] (['c', 'a', 't'] ++ [' '])).2.all
      fun r => !(isWordRated r)) = true :=
  typedWord_apply_disabled_char_only envUnprotected ['c', 'a', 't'] ' '
    rfl rfl (by decide) (by decide) (Or.inl rfl)


/-- Under protected input the appended character is the mask placeholder. -/
theorem maskChar_protected (env : EchoEnv) (ch : Char)
    (hprot : env.isProtected = true) : maskChar env ch = PROTECTED_CHAR := by
  simp [maskChar, hprot]

/-- With protected input active, the word-handling block emits nothing
(both its branches require unprotected input). -/
theorem wordEchoRequests_protected (env : EchoEnv) (t : String)
    (hprot : env.isProtected = true) :
    wordEchoRequests env t = [] := by
  unfold wordEchoRequests
  rw [if_neg (by simp [hprot]), if_neg (by simp [hprot])]

/-- The character-echo block applied to the mask placeholder only ever
emits fully masked requests. -/
theorem charEchoRequests_masked (env : EchoEnv) (ch : Char) :
    ∀ r ∈ charEchoRequests env ch PROTECTED_CHAR, requestAllMasked r = true := by
  intro r hr
  unfold charEchoRequests at hr
  split at hr
  · split at hr
    · simp at hr
      subst hr
      decide
    · simp at hr
  · simp at hr

/-- Every entry of the buffer after one keystroke either was already in
the buffer or is the (possibly masked) typed character. -/
theorem onTypedCharacter_buf_mem (env : EchoEnv) (buf : List Char) (ch : Char) :
    ∀ x ∈ (onTypedCharacter env buf ch).1,
      x ∈ buf ∨ x = maskChar env ch := by
  intro x hx
  simp only [onTypedCharacter] at hx
  split at hx
  · rcases List.mem_append.mp hx with h | h
    · exact Or.inl h
    · simp at h
      exact Or.inr h
  · split at hx
    · exact Or.inl (List.dropLast_subset buf hx)
    · split at hx
      · exact Or.inl hx
      · split at hx
        · simp at hx
        · exact Or.inl hx

/-- Under protected input every emitted request is fully masked. -/
theorem onTypedCharacter_masked_requests (env : EchoEnv) (buf : List Char)
    (ch : Char) (hprot : env.isProtected = true) :
    ∀ r ∈ (onTypedCharacter env buf ch).2, requestAllMasked r = true := by
  intro r hr
  simp only [onTypedCharacter, maskChar_protected env ch hprot] at hr
  split at hr
  · exact charEchoRequests_masked env ch r hr
  · split at hr
    · exact charEchoRequests_masked env ch r hr
    · split at hr
      · simp at hr
      · split at hr
        · rw [wordEchoRequests_protected env _ hprot, List.nil_append] at hr
          exact charEchoRequests_masked env ch r hr
        · exact charEchoRequests_masked env ch r hr

/-- C3: with protected (masked) input active, the typed-word buffer only
ever holds the mask placeholder and every emitted request carries only
mask placeholders; moreover the handler's output is identical for any two
characters with the same classification, so the real typed characters are
not observable in the buffer or in any emitted request. -/
theorem protected_input_masking (env : EchoEnv) (buf : List Char)
    (c c₁ c₂ : Char) (hprot : env.isProtected = true) :
    (buf.all (fun x => x == PROTECTED_CHAR) = true →
      ((onTypedCharacter env buf c).1.all (fun x => x == PROTECTED_CHAR) = true ∧
       ((onTypedCharacter env buf c).2.all requestAllMasked) = true)) ∧
    (classifyTypedChar c₁ = classifyTypedChar c₂ →
      onTypedCharacter env buf c₁ = onTypedCharacter env buf c₂) := by
  constructor
  · intro hbuf
    rw [List.all_eq_true] at hbuf
    constructor
    · rw [List.all_eq_true]
      intro x hx
      rcases onTypedCharacter_buf_mem env buf c x hx with h | h
      · exact hbuf x h
      · rw [maskChar_protected env c hprot] at h
        simp [h]
    · rw [List.all_eq_true]
      intro r hr
      exact onTypedCharacter_masked_requests env buf c hprot r hr
  · intro hcl
    simp only [classifyTypedChar, Prod.mk.injEq] at hcl
    obtain ⟨h1, h2, h3, h4⟩ := hcl
    have h2' := decide_eq_decide.mp h2
    have h3' := decide_eq_decide.mp h3
    have hce : charEchoRequests env c₁ PROTECTED_CHAR =
        charEchoRequests env c₂ PROTECTED_CHAR := by
      unfold charEchoRequests
      simp only [decide_eq_decide.mp h4]
    simp only [onTypedCharacter, maskChar_protected env c₁ hprot,
      maskChar_protected env c₂ hprot, h1, h2', h3', hce]

/-- Witness for `protected_input_masking`: a masked buffer stays masked
with masked requests on input 's', and inputs 'x' and 'y' (same
classification) produce identical output. -/
theorem protected_input_masking_witness :
    ((onTypedCharacter envProtected [PROTECTED_CHAR] 's').1.all
        (fun x => x == PROTECTED_CHAR) = true ∧
     ((onTypedCharacter envProtected [PROTECTED_CHAR] 's').2.all
        requestAllMasked) = true) ∧
    onTypedCharacter envProtected [PROTECTED_CHAR] 'x' =
      onTypedCharacter envProtected [PROTECTED_CHAR] 'y' :=
  ⟨(protected_input_masking envProtected [PROTECTED_CHAR] 's' 'x' 'y' rfl).1
      (by decide),
   (protected_input_masking envProtected [PROTECTED_CHAR] 's' 'x' 'y' rfl).2
      (by decide)⟩

/-- C8: the delete character (0x7F) leaves the typed-word buffer untouched
and emits no request, for every buffer and every combination of
protection, echo-mode and editability inputs. -/
theorem delete_char_noop (env : EchoEnv) (buf : List Char) :
    onTypedCharacter env buf '\x7f' = (buf, []) := by
  have hw : isWordConstituent '\x7f' = false := by decide
  have h8 : ¬ ('\x7f' : Char) = '\x08' := by decide
  simp [onTypedCharacter, hw, h8]
